import Mathlib

/-!
# Shallow embedding of the Janggi engine C bridge (`c_api.cpp`)

The bridge wraps an external Fairy-Stockfish-style engine library behind four
C entry points: `stockfish_init`, `stockfish_command`, `stockfish_analyze`
and `stockfish_cleanup`.  The engine library itself (board representation,
move generation, search) is out of the bridge's scope and is modelled here as
an abstract collaborator (`Engine`): every call the bridge makes into the
library is a field of that structure, and each such call may either return a
value or raise a C++ exception (`Exc`).

Strings are modelled at byte granularity by Lean `String`s (one `Char` per
byte of the C buffer); formatted integer extraction from an `istringstream`
is modelled at whitespace-token granularity with unbounded integers, and the
stream's fail state is represented by exhausting the token list.  Debug
logging (`LOGD`/`LOGE`, stderr only) is not modelled.
-/

/-- A C++ exception observed at a catch site: either a `std::exception`
carrying a message (`e.what()`), or a thrown value of any other type, which
only a `catch (...)` handler can stop. -/
inductive Exc where
  | std (msg : String)
  | other
deriving DecidableEq

/-- Engine move handle (`Move` is an integer type in the engine library). -/
abbrev Move := Nat

/-- The engine's null move sentinel. -/
def MOVE_NONE : Move := 0

/-- An entry of the engine's variant registry; the bridge only reads the
variant's starting FEN (`it->second->startFen`). -/
structure Variant where
  startFen : String
deriving DecidableEq

/-- The bridge's one mutable engine position (`g_pos`), modelled freely by
how the bridge built it: `pos.set(variant, fen, chess960, ..., sfen)`
followed by the `pos.do_move` calls applied since. -/
structure Position where
  variant : Variant := { startFen := "" }
  fen : String := ""
  chess960 : Bool := false
  sfen : Bool := false
  moves : List Move := []
deriving DecidableEq

/-- `pos.set(v, fen, chess960, &states->back(), Threads.main(), sfen)`:
replaces the position, discarding previously applied moves. -/
def Position.set (v : Variant) (fen : String) (chess960 : Bool) (sfen : Bool) : Position :=
  { variant := v, fen := fen, chess960 := chess960, sfen := sfen, moves := [] }

/-- `pos.do_move(m, states->back())`: applies one move to the position. -/
def Position.do_move (p : Position) (m : Move) : Position :=
  { p with moves := p.moves ++ [m] }

/-- One entry of the main thread's `rootMoves` after a search.  In the
engine library a `RootMove`'s principal variation always contains at least
one move (`pv[0]`), so the pv is modelled as a head plus a tail. -/
structure RootMove where
  pv0 : Move
  pvTail : List Move := []
  score : Int := 0
deriving DecidableEq

/-- `Search::LimitsType`, with the fields the bridge fills in
`handle_go`/`stockfish_analyze` (the wall-clock `startTime` field is not
modelled). -/
structure Limits where
  searchmoves : List Move := []
  timeWhite : Int := 0
  timeBlack : Int := 0
  incWhite : Int := 0
  incBlack : Int := 0
  movestogo : Int := 0
  depth : Int := 0
  nodes : Int := 0
  movetime : Int := 0
  infinite : Int := 0
deriving DecidableEq

/-- The UCI option registry (`Options`), a name-to-value string map. -/
abbrev OptMap := List (String × String)

/-- Read an option's string value; a missing key reads as the empty string
(a default-constructed `Option`). -/
def OptMap.getS (m : OptMap) (k : String) : String :=
  ((m.find? (fun p => p.1 == k)).map Prod.snd).getD ""

/-- `Options.count(name) != 0`. -/
def OptMap.hasKey (m : OptMap) (k : String) : Bool :=
  m.any (fun p => p.1 == k)

/-- Assign an existing key's value, leaving other entries unchanged. -/
def OptMap.setKey (m : OptMap) (k v : String) : OptMap :=
  m.map (fun p => if p.1 == k then (k, v) else p)

/-- `Options[name] = value` via `std::map::operator[]`: assigns the key,
inserting it if absent. -/
def OptMap.upsert (m : OptMap) (k v : String) : OptMap :=
  if m.hasKey k then m.setKey k v else m ++ [(k, v)]

/-- The engine's `Option`-to-`bool` conversion applied to a stored option
value string (used for `Options["UCI_Chess960"]`). -/
def optBool (s : String) : Bool := s == "true"

/-- Modelled from the spec: the external engine collaborator (the wrapped
Fairy-Stockfish library, out of the bridge's scope per the spec).  Each
field is one capability the bridge calls into; a `some e` / `.error e`
result means the call raised the C++ exception `e`.  The mate-threshold
constants of the library's `types.h` are collaborator-supplied data. -/
structure Engine where
  pieceMapInit : Option Exc
  variantsInitR : Except Exc (List (String × Variant))
  uciInitR : Except Exc OptMap
  bitboardsInit : Option Exc
  positionInit : Option Exc
  psqtInit : Variant → Option Exc
  threadsSet : Nat → Option Exc
  searchClear : Option Exc
  posSetExc : Variant → String → Bool → Bool → Option Exc
  to_move : Position → String → Except Exc Move
  doMoveExc : Position → Move → Option Exc
  uciMove : Position → Move → Except Exc String
  search : Position → Limits → Except Exc (List RootMove)
  VALUE_MATE : Int
  VALUE_MATE_IN_MAX_PLY : Int
  VALUE_MATED_IN_MAX_PLY : Int

/-- The bridge's process-wide mutable state: the globals of `c_api.cpp`
plus the engine-side state the bridge owns through them (variant registry,
option registry, thread pool size, the main thread's root moves and the
root position last handed to `Threads.start_thinking`). -/
structure BridgeState where
  initialized : Bool
  threadsCmd : Bool
  threadsAna : Bool
  variantsReg : List (String × Variant)
  options : OptMap
  pos : Position
  states : Nat
  threadPool : Nat
  threadsStop : Bool
  rootPos : Option Position
  rootMoves : List RootMove
  outputBuffer : String
  coutCapture : String
  coutBuf : Nat
  oldCout : Option Nat
deriving DecidableEq

/-- Identifier of `std::cout`'s original stream buffer. -/
def realCoutBuf : Nat := 0

/-- Identifier of the discarding `NullBuffer` (`g_null_buffer`). -/
def nullBufId : Nat := 1

/-- The globals of `c_api.cpp` at load time: `g_initialized = false`, both
lazy flags false, `g_states` a fresh one-element chain, registries empty,
zero-initialized static `output_buffer`. -/
def loadState : BridgeState :=
  { initialized := false, threadsCmd := false, threadsAna := false,
    variantsReg := [], options := [], pos := {}, states := 1,
    threadPool := 0, threadsStop := false, rootPos := none, rootMoves := [],
    outputBuffer := "", coutCapture := "", coutBuf := realCoutBuf, oldCout := none }

/-- Truncating copy into the 8192-byte `output_buffer`: at most 8191 bytes
are kept and the terminator occupies the following byte.  All three copy
idioms of the source (`strncpy` with explicit final terminator, `snprintf`,
`memcpy` of `min(len, size-1)` bytes plus terminator) reduce to this. -/
def truncate8191 (s : String) : String :=
  String.mk (s.data.take 8191)

/-- Store a response in `output_buffer` and return it (`return output_buffer`). -/
def emit (st : BridgeState) (s : String) : Except Exc String × BridgeState :=
  (Except.ok (truncate8191 s), { st with outputBuffer := truncate8191 s })

/-- Byte classified as whitespace by stream extraction. -/
def isWsChar (c : Char) : Bool := c == ' ' || c == '\t' || c == '\n' || c == '\r'

/-- Split a character list into maximal runs of non-whitespace characters,
carrying the (reversed) run being read. -/
def splitWsAux : List Char → List Char → List String
  | [], acc => if acc.isEmpty then [] else [String.mk acc.reverse]
  | c :: cs, acc =>
    if isWsChar c then
      if acc.isEmpty then splitWsAux cs []
      else String.mk acc.reverse :: splitWsAux cs []
    else splitWsAux cs (c :: acc)

/-- Whitespace tokenization of a command line, as iterated `is >> token`. -/
def tokenize (s : String) : List String := splitWsAux s.data []

instance {α β : Type} [DecidableEq α] [DecidableEq β] : DecidableEq (Except α β) := fun a b =>
  match a, b with
  | Except.ok x, Except.ok y => decidable_of_iff (x = y) (by simp)
  | Except.ok _, Except.error _ => Decidable.isFalse (by simp)
  | Except.error _, Except.ok _ => Decidable.isFalse (by simp)
  | Except.error e, Except.error f => decidable_of_iff (e = f) (by simp)

/-- The move-application loop at the end of `handle_position`: resolve each
token against the current position (`UCI::to_move`), stop silently at the
first token that yields `MOVE_NONE`, otherwise grow the state chain by one
snapshot (`states->emplace_back()`) and apply the move.  Returns a raised
exception (if any) together with the position and chain length reached. -/
def applyMoves (E : Engine) : Position → Nat → List String → Option Exc × Position × Nat
  | pos, states, [] => (none, pos, states)
  | pos, states, t :: rest =>
    match E.to_move pos t with
    | Except.error e => (some e, pos, states)
    | Except.ok m =>
      if m = MOVE_NONE then (none, pos, states)
      else
        match E.doMoveExc pos m with
        | some e => (some e, pos, states + 1)
        | none => applyMoves E (pos.do_move m) (states + 1) rest

/-- The `fen`/`sfen` accumulation loop of `handle_position`:
`while (is >> token && token != "moves") fen += token + " ";`
returns the accumulated fen text and the tokens remaining after a `moves`
keyword (the stream is failed, i.e. empty, when the loop ended at EOF). -/
def collectFen : List String → String → String × List String
  | [], acc => (acc, [])
  | t :: rest, acc =>
    if t == "moves" then (acc, rest) else collectFen rest (acc ++ t ++ " ")

/-- The tail of `handle_position` common to the `startpos` and `fen`/`sfen`
branches (lines 95-117): look the active variant up again, replace the
state chain with a fresh one-element chain, set the position, then apply
the move tokens. -/
def setAndApply (E : Engine) (reg : List (String × Variant)) (opts : OptMap)
    (pos : Position) (states : Nat) (fen : String) (sfen : Bool) (rest : List String) :
    Option Exc × Position × Nat :=
  match List.lookup (opts.getS "UCI_Variant") reg with
  | none => (none, pos, states)
  | some v =>
    match E.posSetExc v fen (optBool (opts.getS "UCI_Chess960")) sfen with
    | some e => (some e, pos, 1)
    | none => applyMoves E (Position.set v fen (optBool (opts.getS "UCI_Chess960")) sfen) 1 rest

/-- `handle_position(g_pos, is, g_states)`: `toks` is the token stream
after the leading `position` token.  An unrecognized first argument token
or a missing variant returns early with the position and chain unchanged. -/
def handle_position (E : Engine) (reg : List (String × Variant)) (opts : OptMap)
    (pos : Position) (states : Nat) (toks : List String) : Option Exc × Position × Nat :=
  let token := (toks.head?).getD ""
  let sfen := token == "sfen"
  if token == "startpos" then
    match List.lookup (opts.getS "UCI_Variant") reg with
    | none => (none, pos, states)
    | some v =>
      -- consume the "moves" token if any, then apply the rest
      setAndApply E reg opts pos states v.startFen sfen (toks.tail.tail)
  else if token == "fen" || token == "sfen" then
    let fenRest := collectFen toks.tail ""
    setAndApply E reg opts pos states fenRest.1 sfen fenRest.2
  else (none, pos, states)

/-- The name-accumulation loop of `handle_setoption`: read tokens into the
(space-joined) option name until the literal token `value` or EOF; returns
the name and the remaining tokens. -/
def readOptName : List String → String → String × List String
  | [], acc => (acc, [])
  | t :: rest, acc =>
    if t == "value" then (acc, rest)
    else readOptName rest (if acc == "" then t else acc ++ " " ++ t)

/-- The value-accumulation loop of `handle_setoption`: space-join all
remaining tokens. -/
def joinValue : List String → String → String
  | [], acc => acc
  | t :: rest, acc => joinValue rest (if acc == "" then t else acc ++ " " ++ t)

/-- `handle_setoption(is)`: skip one token (nominally `name`), accumulate
the option name up to `value`, the value after it, and assign only if the
option already exists in the registry. -/
def handle_setoption (opts : OptMap) (toks : List String) : OptMap :=
  let afterName := toks.tail
  let nameRest := readOptName (if toks.isEmpty then [] else afterName) ""
  let value := joinValue nameRest.2 ""
  if opts.hasKey nameRest.1 then opts.setKey nameRest.1 value else opts

/-- Digit-run accumulator for formatted integer extraction. -/
def digitsToNat : List Char → Nat → Option Nat
  | [], acc => some acc
  | c :: cs, acc =>
    if c.isDigit then digitsToNat cs (acc * 10 + (c.toNat - 48)) else none

/-- Formatted integer extraction (`is >> intvar`) applied to one token:
an optional sign followed by at least one decimal digit; any other shape
fails the stream. -/
def parseIntTok (s : String) : Option Int :=
  match s.data with
  | [] => none
  | '+' :: ds =>
    match ds with
    | [] => none
    | _ => (digitsToNat ds 0).map Int.ofNat
  | '-' :: ds =>
    match ds with
    | [] => none
    | _ => (digitsToNat ds 0).map (fun n => -(Int.ofNat n))
  | ds => (digitsToNat ds 0).map Int.ofNat

/-- The `searchmoves` sub-loop of `handle_go`: resolve every remaining
token and push the result (including `MOVE_NONE`) onto the restriction
list. -/
def parseSearchmoves (E : Engine) (pos : Position) : List String → Limits → Option Exc × Limits
  | [], l => (none, l)
  | t :: rest, l =>
    match E.to_move pos t with
    | Except.error e => (some e, l)
    | Except.ok m => parseSearchmoves E pos rest { l with searchmoves := l.searchmoves ++ [m] }

/-- The argument loop of `handle_go`.  Keywords taking an integer consume
the following token; a missing or unparsable integer zeroes the target
field and fails the stream, ending the loop (C++11 formatted extraction). -/
def parseGoToks (E : Engine) (pos : Position) : List String → Limits → Option Exc × Limits
  | [], l => (none, l)
  | t :: rest, l =>
    if t == "searchmoves" then parseSearchmoves E pos rest l
    else if t == "wtime" then
      match rest with
      | [] => (none, { l with timeWhite := 0 })
      | x :: rest2 =>
        match parseIntTok x with
        | none => (none, { l with timeWhite := 0 })
        | some n => parseGoToks E pos rest2 { l with timeWhite := n }
    else if t == "btime" then
      match rest with
      | [] => (none, { l with timeBlack := 0 })
      | x :: rest2 =>
        match parseIntTok x with
        | none => (none, { l with timeBlack := 0 })
        | some n => parseGoToks E pos rest2 { l with timeBlack := n }
    else if t == "winc" then
      match rest with
      | [] => (none, { l with incWhite := 0 })
      | x :: rest2 =>
        match parseIntTok x with
        | none => (none, { l with incWhite := 0 })
        | some n => parseGoToks E pos rest2 { l with incWhite := n }
    else if t == "binc" then
      match rest with
      | [] => (none, { l with incBlack := 0 })
      | x :: rest2 =>
        match parseIntTok x with
        | none => (none, { l with incBlack := 0 })
        | some n => parseGoToks E pos rest2 { l with incBlack := n }
    else if t == "movestogo" then
      match rest with
      | [] => (none, { l with movestogo := 0 })
      | x :: rest2 =>
        match parseIntTok x with
        | none => (none, { l with movestogo := 0 })
        | some n => parseGoToks E pos rest2 { l with movestogo := n }
    else if t == "depth" then
      match rest with
      | [] => (none, { l with depth := 0 })
      | x :: rest2 =>
        match parseIntTok x with
        | none => (none, { l with depth := 0 })
        | some n => parseGoToks E pos rest2 { l with depth := n }
    else if t == "nodes" then
      match rest with
      | [] => (none, { l with nodes := 0 })
      | x :: rest2 =>
        match parseIntTok x with
        | none => (none, { l with nodes := 0 })
        | some n => parseGoToks E pos rest2 { l with nodes := n }
    else if t == "movetime" then
      match rest with
      | [] => (none, { l with movetime := 0 })
      | x :: rest2 =>
        match parseIntTok x with
        | none => (none, { l with movetime := 0 })
        | some n => parseGoToks E pos rest2 { l with movetime := n }
    else if t == "infinite" then parseGoToks E pos rest { l with infinite := 1 }
    else parseGoToks E pos rest l

/-- `handle_go(g_pos, is, g_states)` followed by
`Threads.main()->wait_for_search_finished()`: parse the limits, hand the
current position to the search (`Threads.start_thinking`) and record the
finished search's root moves on the main thread. -/
def handle_go (E : Engine) (st : BridgeState) (toks : List String) : Option Exc × BridgeState :=
  match parseGoToks E st.pos toks {} with
  | (some e, _) => (some e, st)
  | (none, limits) =>
    let st1 := { st with rootPos := some st.pos }
    match E.search st.pos limits with
    | Except.error e => (some e, st1)
    | Except.ok rms => (none, { st1 with rootMoves := rms })

/-- Outcome of the lazy thread/position provisioning `try` block: success,
a caught `std::exception`, or a non-`std::exception` throw that the block's
sole `catch (const std::exception&)` handler cannot stop and which escapes
the entry point.  Each outcome carries the global state reached. -/
inductive LazyOut where
  | ok (st : BridgeState)
  | caught (msg : String) (st : BridgeState)
  | escaped (st : BridgeState)

/-- The body of the lazy provisioning `try` block shared (textually
duplicated) by `stockfish_command` and `stockfish_analyze`:
`Threads.set(1); Search::clear();` then set the janggi starting position if
the variant is registered.  The caller records the readiness flag on
success. -/
def lazyProvision (E : Engine) (st : BridgeState) : LazyOut :=
  match E.threadsSet 1 with
  | some (Exc.std m) => LazyOut.caught m st
  | some Exc.other => LazyOut.escaped st
  | none =>
    let st1 := { st with threadPool := 1 }
    match E.searchClear with
    | some (Exc.std m) => LazyOut.caught m st1
    | some Exc.other => LazyOut.escaped st1
    | none =>
      match List.lookup "janggi" st1.variantsReg with
      | none => LazyOut.ok st1
      | some v =>
        match E.posSetExc v v.startFen false false with
        | some (Exc.std m) => LazyOut.caught m st1
        | some Exc.other => LazyOut.escaped st1
        | none => LazyOut.ok { st1 with pos := Position.set v v.startFen false false }

/-- The command dispatch `try` block of `stockfish_command` (lines 291-386
up to the final buffer copy): clear the capture buffer, tokenize, dispatch
on the first token, accumulate the textual response in the capture buffer.
Returns the raised exception, if any, with the state reached. -/
def dispatch (E : Engine) (st0 : BridgeState) (c : String) : Option Exc × BridgeState :=
  let st := { st0 with coutCapture := "" }
  let toks := tokenize c
  let token := (toks.head?).getD ""
  let rest := toks.tail
  if token == "position" then
    match handle_position E st.variantsReg st.options st.pos st.states rest with
    | (some e, pos', states') => (some e, { st with pos := pos', states := states' })
    | (none, pos', states') =>
      (none, { st with pos := pos', states := states',
                       coutCapture := st.coutCapture ++ "ok\n" })
  else if token == "go" then
    match handle_go E st rest with
    | (some e, st') => (some e, st')
    | (none, st') =>
      match st'.rootMoves with
      | [] => (none, st')
      | rm :: _ =>
        if rm.pv0 = MOVE_NONE then (none, st')
        else
          match E.uciMove st'.pos rm.pv0 with
          | Except.error e => (some e, st')
          | Except.ok moveStr =>
            let stA := { st' with coutCapture := st'.coutCapture ++ "bestmove " ++ moveStr }
            match rm.pvTail with
            | [] => (none, { stA with coutCapture := stA.coutCapture ++ "\n" })
            | ponder :: _ =>
              match E.uciMove stA.pos ponder with
              | Except.error e => (some e, stA)
              | Except.ok ponderStr =>
                (none, { stA with
                  coutCapture := stA.coutCapture ++ " ponder " ++ ponderStr ++ "\n" })
  else if token == "setoption" then
    (none, { st with options := handle_setoption st.options rest,
                     coutCapture := st.coutCapture ++ "ok\n" })
  else if token == "isready" then
    (none, { st with coutCapture := st.coutCapture ++ "readyok\n" })
  else if token == "uci" then
    (none, { st with coutCapture := st.coutCapture ++
      "id name Fairy-Stockfish (Janggi)\nid author Fairy-Stockfish developers\nuciok\n" })
  else if token == "ucinewgame" then
    match E.searchClear with
    | some e => (some e, st)
    | none =>
      let st1 := { st with states := 1 }
      match List.lookup "janggi" st1.variantsReg with
      | none => (none, { st1 with coutCapture := st1.coutCapture ++ "ok\n" })
      | some v =>
        match E.posSetExc v v.startFen false false with
        | some e => (some e, st1)
        | none =>
          (none, { st1 with pos := Position.set v v.startFen false false,
                            coutCapture := st1.coutCapture ++ "ok\n" })
  else if token == "quit" then
    (none, { st with threadsStop := true, coutCapture := st.coutCapture ++ "ok\n" })
  else if token == "" then
    (none, st)
  else
    (none, { st with coutCapture := st.coutCapture ++ "Unknown command: " ++ c ++ "\n" })

/-- `stockfish_command` after initialization check and lazy provisioning:
null-command validation, then the dispatch `try` block with its two catch
handlers, then the bounded copy into `output_buffer`. -/
def commandMain (E : Engine) (st1 : BridgeState) (cmd : Option String) :
    Except Exc String × BridgeState :=
  match cmd with
  | none => emit st1 "error: Null command"
  | some c =>
    match dispatch E st1 c with
    | (none, st2) => emit st2 st2.coutCapture
    | (some (Exc.std m), st2) => emit st2 ("error: Exception - " ++ m)
    | (some Exc.other, st2) => emit st2 "error: Unknown exception"

/-- `stockfish_command(cmd)`: the `submit` entry point.  The returned
`Except` is what the caller observes: `.ok s` means the call returned the
string `s` (through `output_buffer`); `.error e` means the C++ exception
`e` propagated out of the entry point into the caller. -/
def stockfish_command (E : Engine) (st0 : BridgeState) (cmd : Option String) :
    Except Exc String × BridgeState :=
  if st0.initialized then
    if st0.threadsCmd then commandMain E st0 cmd
    else
      match lazyProvision E st0 with
      | LazyOut.escaped st1 => (Except.error Exc.other, st1)
      | LazyOut.caught m st1 => emit st1 ("error: Thread init failed - " ++ m)
      | LazyOut.ok st1 => commandMain E { st1 with threadsCmd := true } cmd
  else emit st0 "error: Engine not initialized"

/-- The body of the `try` block of `stockfish_init` (lines 184-227): the
seven startup stages in order, any of which may raise; the variant and
option registries are updated as the stages complete, so a failure keeps
the partial effects.  On success the lazy flags are cleared, the state
chain replaced and the session marked initialized. -/
def initBody (E : Engine) (st0 : BridgeState) : Option Exc × BridgeState :=
  match E.pieceMapInit with
  | some e => (some e, st0)
  | none =>
    match E.variantsInitR with
    | Except.error e => (some e, st0)
    | Except.ok reg =>
      let st1 := { st0 with variantsReg := reg }
      match E.uciInitR with
      | Except.error e => (some e, st1)
      | Except.ok defaults =>
        let st2 := { st1 with options :=
          ((defaults.upsert "UCI_Variant" "janggi").upsert "Threads" "1").upsert "Hash" "16" }
        match E.bitboardsInit with
        | some e => (some e, st2)
        | none =>
          match E.positionInit with
          | some e => (some e, st2)
          | none =>
            match (match List.lookup (st2.options.getS "UCI_Variant") st2.variantsReg with
                   | none => none
                   | some v => E.psqtInit v) with
            | some e => (some e, st2)
            | none =>
              (none, { st2 with threadsCmd := false, threadsAna := false,
                                states := 1, initialized := true })

/-- `stockfish_init()`: the `initialize` entry point.  An already
initialized session returns immediately; otherwise the staged startup runs
inside a failure boundary whose both catch handlers leave the session
marked uninitialized without rolling partial effects back. -/
def stockfish_init (E : Engine) (st0 : BridgeState) : BridgeState :=
  if st0.initialized then st0
  else
    match initBody E st0 with
    | (some _, st) => { st with initialized := false }
    | (none, st) => st

/-- `stockfish_analyze` after initialization check and lazy provisioning:
null-fen validation, then the analysis `try` block with its two catch
handlers, then the bounded copy into `output_buffer`. -/
def analyzeMain (E : Engine) (st1 : BridgeState) (fen? : Option String) (depth : Int) :
    Except Exc String × BridgeState :=
  match fen? with
  | none => emit st1 "error: Null FEN"
  | some fen =>
        -- try block: Search::clear(), variant lookup, fresh chain, position
        -- from the caller's fen, then the scoped cout redirect and search
        match E.searchClear with
        | some (Exc.std m) => emit st1 ("error: Exception - " ++ m)
        | some Exc.other => emit st1 "error: Unknown exception"
        | none =>
          match List.lookup "janggi" st1.variantsReg with
          | none => emit st1 "error: Janggi variant not found"
          | some v =>
            let st2 := { st1 with states := 1 }
            match E.posSetExc v fen false false with
            | some (Exc.std m) => emit st2 ("error: Exception - " ++ m)
            | some Exc.other => emit st2 "error: Unknown exception"
            | none =>
              let st3 := { st2 with pos := Position.set v fen false false }
              let limits : Limits := { depth := depth }
              -- ScopedCoutRedirect: swap in the null buffer, restore on
              -- every exit path of the scope
              let saved := st3.coutBuf
              let st4 := { st3 with coutBuf := nullBufId, rootPos := some st3.pos }
              match E.search st3.pos limits with
              | Except.error e =>
                let st5 := { st4 with coutBuf := saved }
                match e with
                | Exc.std m => emit st5 ("error: Exception - " ++ m)
                | Exc.other => emit st5 "error: Unknown exception"
              | Except.ok rms =>
                let st5 := { st4 with rootMoves := rms }
                match rms with
                | [] => emit { st5 with coutBuf := saved } "error: No root moves"
                | rm :: _ =>
                  let scoreStr :=
                    if E.VALUE_MATE_IN_MAX_PLY ≤ rm.score then
                      "mate " ++ toString (Int.tdiv (E.VALUE_MATE - rm.score + 1) 2)
                    else if rm.score ≤ E.VALUE_MATED_IN_MAX_PLY then
                      "mate " ++ toString (Int.tdiv (-E.VALUE_MATE - rm.score) 2)
                    else
                      "cp " ++ toString rm.score
                  if rm.pv0 = MOVE_NONE then
                    emit { st5 with coutBuf := saved } scoreStr
                  else
                    match E.uciMove st5.pos rm.pv0 with
                    | Except.error e =>
                      let st6 := { st5 with coutBuf := saved }
                      match e with
                      | Exc.std m => emit st6 ("error: Exception - " ++ m)
                      | Exc.other => emit st6 "error: Unknown exception"
                    | Except.ok mv =>
                      emit { st5 with coutBuf := saved } (scoreStr ++ " bestmove " ++ mv)

/-- `stockfish_analyze(fen, depth)`: the `analyzePosition` entry point,
wrapping `analyzeMain` in the initialization check and the lazy
provisioning block (tracked by its own readiness flag). -/
def stockfish_analyze (E : Engine) (st0 : BridgeState) (fen? : Option String) (depth : Int) :
    Except Exc String × BridgeState :=
  if st0.initialized then
    if st0.threadsAna then analyzeMain E st0 fen? depth
    else
      match lazyProvision E st0 with
      | LazyOut.escaped st1 => (Except.error Exc.other, st1)
      | LazyOut.caught m st1 => emit st1 ("error: Thread init failed - " ++ m)
      | LazyOut.ok st1 => analyzeMain E { st1 with threadsAna := true } fen? depth
  else emit st0 "error: Engine not initialized"

/-- `stockfish_cleanup()`: the `teardown` entry point.  A `catch (...)`
handler swallows any exception raised by the shutdown calls, leaving the
state reached at the throw point. -/
def stockfish_cleanup (E : Engine) (st0 : BridgeState) : BridgeState :=
  if st0.initialized then
    match E.searchClear with
    | some _ => st0
    | none =>
      match E.threadsSet 0 with
      | some _ => st0
      | none =>
        let st1 := { st0 with threadPool := 0 }
        let st2 :=
          match st1.oldCout with
          | some b => { st1 with coutBuf := b, oldCout := none }
          | none => st1
        { st2 with threadsCmd := false, threadsAna := false, states := 1,
                   initialized := false }
  else st0

/-- Length of the string a call returned to the caller (0 when the call
did not return but propagated an exception). -/
def returnedLen : Except Exc String × BridgeState → Nat
  | (Except.ok s, _) => s.length
  | (Except.error _, _) => 0

/-- When a call returned a string, that string is exactly the contents of
`output_buffer` (the caller receives a pointer into the buffer). -/
def returnedInBuffer : Except Exc String × BridgeState → Prop
  | (Except.ok s, st) => st.outputBuffer = s
  | (Except.error _, _) => True

/-- No whitespace byte occurs in `s` (the `\S+` requirement of the
analyze result's move token). -/
def noWs (s : String) : Bool :=
  s.data.all (fun c => !(c == ' ' || c == '\t' || c == '\n' || c == '\r'))

/-- The analyze result shape of the spec:
`^(cp -?\d+|mate -?\d+)( bestmove \S+)?$`, with integer literals
represented by `toString` of an integer. -/
def analyzeShapeOk (s : String) : Prop :=
  ∃ n : Int, ∃ tail : String,
    (s = "cp " ++ toString n ++ tail ∨ s = "mate " ++ toString n ++ tail) ∧
    (tail = "" ∨ ∃ w : String, tail = " bestmove " ++ w ∧ w ≠ "" ∧ noWs w = true)

/-- `StepsOk E pos ts pos'` holds when every token of `ts`, resolved in
order against the evolving position, yields a legal (non-null) move that
applies without fault, ending in position `pos'`. -/
inductive StepsOk (E : Engine) : Position → List String → Position → Prop
  | nil (pos : Position) : StepsOk E pos [] pos
  | cons (pos : Position) (t : String) (m : Move) (rest : List String) (posEnd : Position)
      (hres : E.to_move pos t = Except.ok m) (hm : m ≠ MOVE_NONE)
      (hdo : E.doMoveExc pos m = none)
      (htail : StepsOk E (pos.do_move m) rest posEnd) :
      StepsOk E pos (t :: rest) posEnd

/-- A benign concrete engine collaborator used to exercise the bridge:
no call ever raises, the registry holds the janggi variant, the token
`m1` resolves to move 5 in any position and every other token to
`MOVE_NONE`, and every search finds the line `[7, 8]` with score 42. -/
def engOk : Engine :=
  { pieceMapInit := none,
    variantsInitR := Except.ok [("janggi", { startFen := "JF" })],
    uciInitR := Except.ok [("UCI_Variant", "chess"), ("UCI_Chess960", "false")],
    bitboardsInit := none, positionInit := none, psqtInit := fun _ => none,
    threadsSet := fun _ => none, searchClear := none,
    posSetExc := fun _ _ _ _ => none,
    to_move := fun _ t => Except.ok (if t == "m1" then 5 else 0),
    doMoveExc := fun _ _ => none,
    uciMove := fun _ m => Except.ok ("mv" ++ toString m),
    search := fun _ _ => Except.ok [{ pv0 := 7, pvTail := [8], score := 42 }],
    VALUE_MATE := 32000, VALUE_MATE_IN_MAX_PLY := 31754,
    VALUE_MATED_IN_MAX_PLY := -31754 }

/-- `engOk` after its `Threads.set(1)` call starts raising a
non-`std::exception` value. -/
def engOther : Engine :=
  { engOk with threadsSet := fun n => if n == 1 then some Exc.other else none }

/-- `engOk` after its `Search::clear()` call starts raising a
`std::exception`. -/
def engClearThrow : Engine :=
  { engOk with searchClear := some (Exc.std "boom") }

/-- The session right after a successful `stockfish_init` against
`engOk`: initialized, lazy provisioning still pending. -/
def stInit : BridgeState := stockfish_init engOk loadState

/-- The session after `stockfish_init` and one successful command against
`engOk`: initialized and command-side provisioning done. -/
def stReady : BridgeState := (stockfish_command engOk stInit (some "isready")).2

/-- `stReady` after analyze-side lazy provisioning has also run. -/
def stReadyBoth : BridgeState := (stockfish_analyze engOk stReady (some "JF") 1).2

/-- The state carried by a lazy provisioning outcome. -/
def lazyState : LazyOut → BridgeState
  | LazyOut.ok st => st
  | LazyOut.caught _ st => st
  | LazyOut.escaped st => st

/-- The one-ply position reached in the C3 witness scenario. -/
def pos1W : Position := (Position.set { startFen := "JF" } "JF" false false).do_move 5

/-- The score formatting rule of `stockfish_analyze` (lines 490-501):
mate-distance text at or beyond either mate threshold, centipawn text
otherwise.  C++ integer division truncates toward zero (`Int.tdiv`). -/
def scoreText (E : Engine) (score : Int) : String :=
  if E.VALUE_MATE_IN_MAX_PLY ≤ score then
    "mate " ++ toString (Int.tdiv (E.VALUE_MATE - score + 1) 2)
  else if score ≤ E.VALUE_MATED_IN_MAX_PLY then
    "mate " ++ toString (Int.tdiv (-E.VALUE_MATE - score) 2)
  else
    "cp " ++ toString score

/-- The full analysis response line: score text plus ` bestmove <move>`
when the principal move is not `MOVE_NONE`. -/
def analyzeOut (E : Engine) (rm : RootMove) (mv : String) : String :=
  scoreText E rm.score ++ (if rm.pv0 = MOVE_NONE then "" else " bestmove " ++ mv)

-- ======================================================================
-- Theorems
-- ======================================================================

/-- `truncate8191` never yields more than 8191 bytes. -/
theorem truncate8191_length (s : String) : (truncate8191 s).length ≤ 8191 := by
  show (s.data.take 8191).length ≤ 8191
  rw [List.length_take]
  exact min_le_left _ _

/-- `truncate8191` is the identity on strings of at most 8191 bytes. -/
theorem truncate8191_short (s : String) (h : s.length ≤ 8191) : truncate8191 s = s := by
  cases s with
  | mk data =>
    simp only [truncate8191]
    congr 1
    exact List.take_of_length_le h

/-- The `if already initialized, return` guard of `stockfish_init`. -/
theorem stockfish_init_noop (E : Engine) (st : BridgeState) (h : st.initialized = true) :
    stockfish_init E st = st := by
  simp [stockfish_init, h]

/-- C7: `stockfish_init` is idempotent: an already initialized session
returns immediately unchanged, so when a first call succeeds, a second
consecutive call performs none of the initialization side effects. -/
theorem C7_init_idempotent (E : Engine) (st : BridgeState) :
    (st.initialized = true → stockfish_init E st = st) ∧
    ((stockfish_init E st).initialized = true →
      stockfish_init E (stockfish_init E st) = stockfish_init E st) :=
  ⟨stockfish_init_noop E st, fun h => stockfish_init_noop E _ h⟩

/-- Witness for C7 at a concrete successful initialization. -/
theorem C7_init_idempotent_witness :
    stockfish_init engOk (stockfish_init engOk loadState) = stockfish_init engOk loadState :=
  (C7_init_idempotent engOk loadState).2 rfl

/-- C2: a `submit` call on an uninitialized session returns the
not-initialized error string and mutates nothing but the output buffer:
the initialized flag, both readiness flags, the position, the state chain
length and the option registry are all unchanged. -/
theorem C2_not_init_no_mutation (E : Engine) (st : BridgeState) (cmd : Option String)
    (h : st.initialized = false) :
    stockfish_command E st cmd =
      (Except.ok "error: Engine not initialized",
       { st with outputBuffer := "error: Engine not initialized" }) ∧
    (stockfish_command E st cmd).2.initialized = st.initialized ∧
    (stockfish_command E st cmd).2.threadsCmd = st.threadsCmd ∧
    (stockfish_command E st cmd).2.threadsAna = st.threadsAna ∧
    (stockfish_command E st cmd).2.pos = st.pos ∧
    (stockfish_command E st cmd).2.states = st.states ∧
    (stockfish_command E st cmd).2.options = st.options := by
  have he : truncate8191 "error: Engine not initialized" = "error: Engine not initialized" := rfl
  simp [stockfish_command, h, emit, he]

/-- Witness for C2 on a concrete uninitialized session. -/
theorem C2_not_init_no_mutation_witness :
    stockfish_command engOk loadState (some "uci") =
      (Except.ok "error: Engine not initialized",
       { loadState with outputBuffer := "error: Engine not initialized" }) :=
  (C2_not_init_no_mutation engOk loadState (some "uci") rfl).1

/-- An early-returning `position` command body: an unrecognized first
argument token or an unregistered active variant leaves the position and
the chain unchanged without raising. -/
theorem handle_position_early (E : Engine) (reg : List (String × Variant)) (opts : OptMap)
    (pos : Position) (states : Nat) (toks : List String)
    (hcond : ((toks.head?).getD "" ∉ (["startpos", "fen", "sfen"] : List String)) ∨
             List.lookup (opts.getS "UCI_Variant") reg = none) :
    handle_position E reg opts pos states toks = (none, pos, states) := by
  unfold handle_position
  rcases hcond with h | h
  · simp only [List.mem_cons, List.mem_singleton, not_or] at h
    obtain ⟨h1, h2, h3⟩ := h
    simp [h1, h2, h3]
  · simp [handle_position, setAndApply, h]

/-- C10: a `position` command whose body fails before the board is set
(first argument token none of `startpos`/`fen`/`sfen`, or active variant
missing from the registry) leaves the position and the state chain
unchanged, yet still answers `ok` with no error surfaced. -/
theorem C10_position_early (E : Engine) (st : BridgeState) (c : String) (rest : List String)
    (hinit : st.initialized = true) (hthreads : st.threadsCmd = true)
    (htoks : tokenize c = "position" :: rest)
    (hcond : ((rest.head?).getD "" ∉ (["startpos", "fen", "sfen"] : List String)) ∨
             List.lookup (st.options.getS "UCI_Variant") st.variantsReg = none) :
    (stockfish_command E st (some c)).1 = Except.ok "ok\n" ∧
    (stockfish_command E st (some c)).2.pos = st.pos ∧
    (stockfish_command E st (some c)).2.states = st.states := by
  have hok : truncate8191 "ok\n" = "ok\n" := rfl
  have hp := handle_position_early E st.variantsReg st.options st.pos st.states rest hcond
  refine ⟨?_, ?_, ?_⟩ <;>
    simp [stockfish_command, hinit, hthreads, commandMain, dispatch, htoks, hp, emit, hok]

/-- Witness for C10: `position banana` on a live session. -/
theorem C10_position_early_witness :
    (stockfish_command engOk stReady (some "position banana")).1 = Except.ok "ok\n" ∧
    (stockfish_command engOk stReady (some "position banana")).2.pos = stReady.pos ∧
    (stockfish_command engOk stReady (some "position banana")).2.states = stReady.states :=
  C10_position_early engOk stReady "position banana" ["banana"] (by decide) (by decide)
    (by decide) (Or.inl (by decide))

/-- The move loop applies each resolvable token in order and stops
silently, without touching later tokens, at the first token resolving to
`MOVE_NONE`. -/
theorem applyMoves_stop (E : Engine) (pre : List String) (pos posEnd : Position)
    (h : StepsOk E pos pre posEnd) (bad : String) (post : List String)
    (hbad : E.to_move posEnd bad = Except.ok MOVE_NONE) :
    ∀ n : Nat, applyMoves E pos n (pre ++ bad :: post) = (none, posEnd, n + pre.length) := by
  induction h with
  | nil pos => intro n; simp [applyMoves, hbad]
  | cons pos t m rest posEnd hres hm hdo htail ih =>
    intro n
    simp only [List.cons_append, applyMoves, hres]
    rw [if_neg hm]
    have harith : n + 1 + rest.length = n + (rest.length + 1) := by omega
    simp [hdo, ih hbad (n + 1), harith]

/-- C3: a `position startpos moves ...` command whose move list contains a
token failing to resolve applies exactly the tokens before it, in order
and with one chain snapshot per applied ply, silently ignores every later
token, raises no error and still answers `ok`. -/
theorem C3_moves_stop (E : Engine) (st : BridgeState) (c : String)
    (pre : List String) (bad : String) (post : List String) (v : Variant) (posEnd : Position)
    (hinit : st.initialized = true) (hthreads : st.threadsCmd = true)
    (htoks : tokenize c = "position" :: "startpos" :: "moves" :: (pre ++ bad :: post))
    (hlook : List.lookup (st.options.getS "UCI_Variant") st.variantsReg = some v)
    (hset : E.posSetExc v v.startFen (optBool (st.options.getS "UCI_Chess960")) false = none)
    (hsteps : StepsOk E
      (Position.set v v.startFen (optBool (st.options.getS "UCI_Chess960")) false) pre posEnd)
    (hbad : E.to_move posEnd bad = Except.ok MOVE_NONE) :
    (stockfish_command E st (some c)).1 = Except.ok "ok\n" ∧
    (stockfish_command E st (some c)).2.pos = posEnd ∧
    (stockfish_command E st (some c)).2.states = 1 + pre.length := by
  have hok : truncate8191 "ok\n" = "ok\n" := rfl
  have hmoves := applyMoves_stop E pre _ posEnd hsteps bad post hbad 1
  have hp : handle_position E st.variantsReg st.options st.pos st.states
      ("startpos" :: "moves" :: (pre ++ bad :: post)) = (none, posEnd, 1 + pre.length) := by
    simp [handle_position, setAndApply, hlook, hset, hmoves]
  refine ⟨?_, ?_, ?_⟩ <;>
    simp [stockfish_command, hinit, hthreads, commandMain, dispatch, htoks, hp, emit, hok]

/-- Witness for C3: one valid move, then a bogus token, then a trailing
token. -/
theorem C3_moves_stop_witness :
    (stockfish_command engOk stReady (some "position startpos moves m1 bogus zz")).1 =
      Except.ok "ok\n" ∧
    (stockfish_command engOk stReady (some "position startpos moves m1 bogus zz")).2.pos =
      pos1W ∧
    (stockfish_command engOk stReady (some "position startpos moves m1 bogus zz")).2.states =
      1 + (["m1"] : List String).length := by
  refine C3_moves_stop engOk stReady "position startpos moves m1 bogus zz"
    ["m1"] "bogus" ["zz"] { startFen := "JF" } pos1W
    (by decide) (by decide) (by decide) (by decide) (by decide) ?_ (by decide)
  refine StepsOk.cons _ "m1" 5 [] pos1W (by decide) (by decide) (by decide) ?_
  have h : (Position.set { startFen := "JF" } (Variant.startFen { startFen := "JF" })
      (optBool (stReady.options.getS "UCI_Chess960")) false).do_move 5 = pos1W := by decide
  rw [h]
  exact StepsOk.nil pos1W

/-- Every return of the post-provisioning command body goes through the
bounded buffer copy. -/
theorem commandMain_shape (E : Engine) (st : BridgeState) (cmd : Option String) :
    ∃ st1 s, commandMain E st cmd = emit st1 s := by
  unfold commandMain
  split
  · exact ⟨_, _, rfl⟩
  · split
    · exact ⟨_, _, rfl⟩
    · exact ⟨_, _, rfl⟩
    · exact ⟨_, _, rfl⟩

/-- Every `stockfish_command` call either returns through the bounded
buffer copy or propagates a non-std exception out of the lazy
provisioning block of an initialized, not-yet-provisioned session. -/
theorem stockfish_command_shape (E : Engine) (st : BridgeState) (cmd : Option String) :
    (∃ st1 s, stockfish_command E st cmd = emit st1 s) ∨
    (∃ st1, stockfish_command E st cmd = (Except.error Exc.other, st1) ∧
       st.initialized = true ∧ st.threadsCmd = false) := by
  unfold stockfish_command
  split
  · rename_i hinit
    split
    · left; exact commandMain_shape E st cmd
    · rename_i hcmd
      split
      · right; exact ⟨_, rfl, hinit, by simpa using hcmd⟩
      · left; exact ⟨_, _, rfl⟩
      · left; exact commandMain_shape E _ cmd
  · left; exact ⟨_, _, rfl⟩

/-- Every return of the post-provisioning analysis body goes through the
bounded buffer copy. -/
theorem analyzeMain_shape (E : Engine) (st : BridgeState) (fen? : Option String) (d : Int) :
    ∃ st1 s, analyzeMain E st fen? d = emit st1 s := by
  unfold analyzeMain
  dsimp only
  repeat' split
  all_goals exact ⟨_, _, rfl⟩

/-- Every `stockfish_analyze` call either returns through the bounded
buffer copy or propagates a non-std exception out of the lazy
provisioning block of an initialized, not-yet-provisioned session. -/
theorem stockfish_analyze_shape (E : Engine) (st : BridgeState) (fen? : Option String) (d : Int) :
    (∃ st1 s, stockfish_analyze E st fen? d = emit st1 s) ∨
    (∃ st1, stockfish_analyze E st fen? d = (Except.error Exc.other, st1) ∧
       st.initialized = true ∧ st.threadsAna = false) := by
  unfold stockfish_analyze
  split
  · rename_i hinit
    split
    · left; exact analyzeMain_shape E st fen? d
    · rename_i hana
      split
      · right; exact ⟨_, rfl, hinit, by simpa using hana⟩
      · left; exact ⟨_, _, rfl⟩
      · left; exact analyzeMain_shape E _ fen? d
  · left; exact ⟨_, _, rfl⟩

/-- C4: on every return path of `submit` and `analyzePosition` the
returned string is the contents of the 8192-byte output buffer, holds at
most 8191 bytes, and longer output is truncated, never overrunning the
buffer. -/
theorem C4_output_bounded (E : Engine) (st : BridgeState) (cmd : Option String)
    (fen? : Option String) (d : Int) :
    returnedLen (stockfish_command E st cmd) ≤ 8191 ∧
    returnedInBuffer (stockfish_command E st cmd) ∧
    returnedLen (stockfish_analyze E st fen? d) ≤ 8191 ∧
    returnedInBuffer (stockfish_analyze E st fen? d) := by
  have hc := stockfish_command_shape E st cmd
  have ha := stockfish_analyze_shape E st fen? d
  refine ⟨?_, ?_, ?_, ?_⟩
  · rcases hc with ⟨st1, s, hs⟩ | ⟨st1, hs, _, _⟩ <;>
      simp [hs, emit, returnedLen, truncate8191_length]
  · rcases hc with ⟨st1, s, hs⟩ | ⟨st1, hs, _, _⟩ <;>
      simp [hs, emit, returnedInBuffer]
  · rcases ha with ⟨st1, s, hs⟩ | ⟨st1, hs, _, _⟩ <;>
      simp [hs, emit, returnedLen, truncate8191_length]
  · rcases ha with ⟨st1, s, hs⟩ | ⟨st1, hs, _, _⟩ <;>
      simp [hs, emit, returnedInBuffer]

/-- C1 (amended): a fault escapes `submit`/`analyzePosition` only as a
non-`std::exception` raised during lazy thread provisioning (session
initialized, corresponding readiness flag still false); every other
internal fault is converted to an error string. -/
theorem C1_exception_boundary (E : Engine) (st : BridgeState) (cmd : Option String)
    (fen? : Option String) (d : Int) (e : Exc) :
    ((stockfish_command E st cmd).1 = Except.error e →
       e = Exc.other ∧ st.initialized = true ∧ st.threadsCmd = false) ∧
    ((stockfish_analyze E st fen? d).1 = Except.error e →
       e = Exc.other ∧ st.initialized = true ∧ st.threadsAna = false) := by
  constructor
  · intro h
    rcases stockfish_command_shape E st cmd with ⟨st1, s, hs⟩ | ⟨st1, hs, hi, ht⟩
    · rw [hs] at h; simp [emit] at h
    · rw [hs] at h
      simp only [Except.error.injEq] at h
      exact ⟨h.symm, hi, ht⟩
  · intro h
    rcases stockfish_analyze_shape E st fen? d with ⟨st1, s, hs⟩ | ⟨st1, hs, hi, ht⟩
    · rw [hs] at h; simp [emit] at h
    · rw [hs] at h
      simp only [Except.error.injEq] at h
      exact ⟨h.symm, hi, ht⟩

/-- Counterexample to C1 as stated: a non-std exception raised by
`Threads.set(1)` during lazy provisioning propagates out of both entry
points instead of being returned as a string. -/
theorem C1_counterexample :
    (stockfish_command engOther stInit (some "isready")).1 = Except.error Exc.other ∧
    (stockfish_analyze engOther stInit (some "JF") 1).1 = Except.error Exc.other := by
  constructor <;> decide

/-- Witness for C1 (amended) at the concrete escaping scenario. -/
theorem C1_exception_boundary_witness :
    (Exc.other = Exc.other ∧ stInit.initialized = true ∧ stInit.threadsCmd = false) ∧
    (Exc.other = Exc.other ∧ stInit.initialized = true ∧ stInit.threadsAna = false) :=
  ⟨(C1_exception_boundary engOther stInit (some "isready") (some "JF") 1 Exc.other).1
     (by decide),
   (C1_exception_boundary engOther stInit (some "isready") (some "JF") 1 Exc.other).2
     (by decide)⟩

/-- The analysis body restores the `std::cout` stream buffer on every
exit path. -/
theorem analyzeMain_coutBuf (E : Engine) (st : BridgeState) (fen? : Option String) (d : Int) :
    (analyzeMain E st fen? d).2.coutBuf = st.coutBuf := by
  unfold analyzeMain
  dsimp only
  repeat' split
  all_goals simp [emit]

/-- Lazy provisioning never touches the `std::cout` stream buffer. -/
theorem lazyState_coutBuf (E : Engine) (st : BridgeState) :
    (lazyState (lazyProvision E st)).coutBuf = st.coutBuf := by
  unfold lazyProvision
  dsimp only
  repeat' split
  all_goals simp [lazyState]

/-- C8: the stdout redirection installed around the search is restored on
every exit path of `analyzePosition` — normal, error, and exception — so
the stream buffer after the call equals its value at entry. -/
theorem C8_cout_restored (E : Engine) (st : BridgeState) (fen? : Option String) (d : Int) :
    (stockfish_analyze E st fen? d).2.coutBuf = st.coutBuf := by
  unfold stockfish_analyze
  split
  · have hl := lazyState_coutBuf E st
    split
    · exact analyzeMain_coutBuf E st fen? d
    · split
      · rename_i st1 heq
        rw [heq] at hl
        simpa [lazyState] using hl
      · rename_i m st1 heq
        rw [heq] at hl
        simp only [lazyState] at hl
        simp [emit, hl]
      · rename_i st1 heq
        rw [heq] at hl
        simp only [lazyState] at hl
        rw [analyzeMain_coutBuf]
        simp [hl]
  · simp [emit]

/-- C6 (amended): `teardown` is a no-op on an uninitialized session and is
idempotent; when the session is initialized and no engine call raises
during shutdown, it resets both readiness flags, replaces the state
chain, marks the session uninitialized, and a subsequent `isready`
returns the not-initialized error.  A fault raised during shutdown is
swallowed (the call still returns), but then the state reached at the
throw point is kept, which can leave the session initialized. -/
theorem C6_cleanup (E : Engine) (st : BridgeState) :
    (st.initialized = false → stockfish_cleanup E st = st) ∧
    stockfish_cleanup E (stockfish_cleanup E st) = stockfish_cleanup E st ∧
    (st.initialized = true → E.searchClear = none → E.threadsSet 0 = none →
      (stockfish_cleanup E st).threadsCmd = false ∧
      (stockfish_cleanup E st).threadsAna = false ∧
      (stockfish_cleanup E st).states = 1 ∧
      (stockfish_cleanup E st).initialized = false ∧
      (stockfish_command E (stockfish_cleanup E st) (some "isready")).1 =
        Except.ok "error: Engine not initialized") := by
  have hnoop : ∀ s : BridgeState, s.initialized = false → stockfish_cleanup E s = s := by
    intro s hs
    simp [stockfish_cleanup, hs]
  have htrunc : truncate8191 "error: Engine not initialized" =
      "error: Engine not initialized" := rfl
  refine ⟨hnoop st, ?_, ?_⟩
  · by_cases hi : st.initialized
    · cases hsc : E.searchClear with
      | some e => simp [stockfish_cleanup, hi, hsc]
      | none =>
        cases hts : E.threadsSet 0 with
        | some e => simp [stockfish_cleanup, hi, hsc, hts]
        | none =>
          apply hnoop
          simp [stockfish_cleanup, hi, hsc, hts]
    · have h0 := hnoop st (by simpa using hi)
      rw [h0, h0]
  · intro hi hsc hts
    have hres : (stockfish_cleanup E st).initialized = false := by
      simp [stockfish_cleanup, hi, hsc, hts]
    refine ⟨?_, ?_, ?_, hres, ?_⟩
    · simp [stockfish_cleanup, hi, hsc, hts]
    · simp [stockfish_cleanup, hi, hsc, hts]
    · simp [stockfish_cleanup, hi, hsc, hts]
    · simp [stockfish_command, hres, emit, htrunc]

/-- Counterexample to C6 as stated: `Search::clear()` raising during
cleanup is swallowed before the flags are reset, so the session stays
initialized and a subsequent `isready` still answers `readyok`. -/
theorem C6_counterexample :
    stReady.initialized = true ∧
    (stockfish_cleanup engClearThrow stReady).initialized = true ∧
    (stockfish_command engClearThrow (stockfish_cleanup engClearThrow stReady)
      (some "isready")).1 = Except.ok "readyok\n" := by
  refine ⟨by decide, by decide, by decide⟩

/-- Witness for C6 (amended) on a concrete initialized session with a
non-raising engine. -/
theorem C6_cleanup_witness :
    (stockfish_cleanup engOk stReady).threadsCmd = false ∧
    (stockfish_cleanup engOk stReady).threadsAna = false ∧
    (stockfish_cleanup engOk stReady).states = 1 ∧
    (stockfish_cleanup engOk stReady).initialized = false ∧
    (stockfish_command engOk (stockfish_cleanup engOk stReady) (some "isready")).1 =
      Except.ok "error: Engine not initialized" :=
  (C6_cleanup engOk stReady).2.2 (by decide) rfl rfl

/-- The analysis body on a fully successful run: fresh one-element chain,
position rebuilt from the caller fen against the janggi variant, search
result recorded, and the formatted score/bestmove line emitted. -/
theorem analyzeMain_ok (E : Engine) (st : BridgeState) (fen : String) (d : Int)
    (v : Variant) (rm : RootMove) (tail : List RootMove) (mv : String)
    (hclear : E.searchClear = none)
    (hvar : List.lookup "janggi" st.variantsReg = some v)
    (hset : E.posSetExc v fen false false = none)
    (hsearch : E.search (Position.set v fen false false) { depth := d } =
      Except.ok (rm :: tail))
    (hmv : E.uciMove (Position.set v fen false false) rm.pv0 = Except.ok mv) :
    analyzeMain E st (some fen) d =
      emit { st with states := 1, pos := Position.set v fen false false,
                     rootPos := some (Position.set v fen false false),
                     rootMoves := rm :: tail }
        (analyzeOut E rm mv) := by
  unfold analyzeMain
  dsimp only
  rw [hclear]
  dsimp only
  rw [hvar]
  dsimp only
  rw [hset]
  dsimp only
  rw [hsearch]
  dsimp only
  by_cases hpv : rm.pv0 = MOVE_NONE
  · simp [hpv, emit, analyzeOut, scoreText]
  · simp [hpv, hmv, emit, analyzeOut, scoreText, String.append_assoc]

/-- The formatted analysis line always matches
`^(cp -?\d+|mate -?\d+)( bestmove \S+)?$` when the move text is a
nonempty whitespace-free token. -/
theorem analyzeShape_of (E : Engine) (rm : RootMove) (mv : String)
    (hws : noWs mv = true) (hne : mv ≠ "") : analyzeShapeOk (analyzeOut E rm mv) := by
  have htail : ((if rm.pv0 = MOVE_NONE then "" else " bestmove " ++ mv) = "") ∨
      ∃ w, (if rm.pv0 = MOVE_NONE then "" else " bestmove " ++ mv) = " bestmove " ++ w ∧
        w ≠ "" ∧ noWs w = true := by
    by_cases hpv : rm.pv0 = MOVE_NONE
    · left; simp [hpv]
    · right; exact ⟨mv, by simp [hpv], hne, hws⟩
  unfold analyzeShapeOk analyzeOut scoreText
  by_cases h1 : E.VALUE_MATE_IN_MAX_PLY ≤ rm.score
  · exact ⟨(E.VALUE_MATE - rm.score + 1).tdiv 2, _, Or.inr (by simp [h1]), htail⟩
  · by_cases h2 : rm.score ≤ E.VALUE_MATED_IN_MAX_PLY
    · exact ⟨(-E.VALUE_MATE - rm.score).tdiv 2, _, Or.inr (by simp [h1, h2]), htail⟩
    · exact ⟨rm.score, _, Or.inl (by simp [h1, h2]), htail⟩

/-- C5: a successful `analyzePosition` formats the search score by the
mate thresholds — `mate N` with `N = (VALUE_MATE - score + 1) / 2` at or
above the winning threshold, `mate -N` with `N` from
`(-VALUE_MATE - score) / 2` at or below the losing threshold, `cp <int>`
otherwise — appends ` bestmove <move>` exactly when a principal move
exists, and the result matches the documented shape. -/
theorem C5_analyze_format (E : Engine) (st : BridgeState) (fen : String) (d : Int)
    (v : Variant) (rm : RootMove) (tail : List RootMove) (mv : String)
    (hinit : st.initialized = true) (hana : st.threadsAna = true)
    (hclear : E.searchClear = none)
    (hvar : List.lookup "janggi" st.variantsReg = some v)
    (hset : E.posSetExc v fen false false = none)
    (hsearch : E.search (Position.set v fen false false) { depth := d } =
      Except.ok (rm :: tail))
    (hmv : E.uciMove (Position.set v fen false false) rm.pv0 = Except.ok mv)
    (hws : noWs mv = true) (hne : mv ≠ "")
    (hlen : (analyzeOut E rm mv).length ≤ 8191) :
    (stockfish_analyze E st (some fen) d).1 = Except.ok (analyzeOut E rm mv) ∧
    analyzeOut E rm mv =
      (if E.VALUE_MATE_IN_MAX_PLY ≤ rm.score then
        "mate " ++ toString (Int.tdiv (E.VALUE_MATE - rm.score + 1) 2)
      else if rm.score ≤ E.VALUE_MATED_IN_MAX_PLY then
        "mate " ++ toString (Int.tdiv (-E.VALUE_MATE - rm.score) 2)
      else
        "cp " ++ toString rm.score) ++
      (if rm.pv0 = MOVE_NONE then "" else " bestmove " ++ mv) ∧
    analyzeShapeOk (analyzeOut E rm mv) := by
  have hmain := analyzeMain_ok E st fen d v rm tail mv hclear hvar hset hsearch hmv
  refine ⟨?_, rfl, analyzeShape_of E rm mv hws hne⟩
  simp [stockfish_analyze, hinit, hana, hmain, emit, truncate8191_short _ hlen]

/-- The final buffer copy does not change which position the search
threads hold. -/
theorem commandMain_some_rootPos (E : Engine) (st : BridgeState) (c : String) :
    (commandMain E st (some c)).2.rootPos = (dispatch E st c).2.rootPos := by
  unfold commandMain
  rcases h : dispatch E st c with ⟨eq, st2⟩
  cases eq with
  | none => simp [h, emit]
  | some e => cases e <;> simp [h, emit]

/-- A dispatched `go` command hands the current position to the search
(`Threads.start_thinking`), whatever the search outcome. -/
theorem dispatch_go_rootPos (E : Engine) (st : BridgeState) (c : String)
    (goArgs : List String) (lims : Limits)
    (htoks : tokenize c = "go" :: goArgs)
    (hpg : parseGoToks E st.pos goArgs ({} : Limits) = (none, lims)) :
    (dispatch E st c).2.rootPos = some st.pos := by
  unfold dispatch handle_go
  simp only [htoks, List.head?_cons, Option.getD_some, List.tail_cons,
    show (("go" : String) == "position") = false from rfl,
    show (("go" : String) == "go") = true from rfl, if_false, if_true,
    Bool.false_eq_true, hpg]
  cases hs : E.search st.pos lims with
  | error e => simp [hs]
  | ok rms =>
    simp only [hs]
    cases rms with
    | nil => simp
    | cons rm tl =>
      by_cases hpv : rm.pv0 = MOVE_NONE
      · simp [hpv]
      · simp only [hpv, if_false]
        cases hum : E.uciMove st.pos rm.pv0 with
        | error e => simp [hum]
        | ok mvs =>
          cases hpt : rm.pvTail with
          | nil => simp [hum, hpt]
          | cons ponder ptl =>
            cases hum2 : E.uciMove st.pos ponder with
            | error e2 => simp [hum, hpt, hum2]
            | ok ps => simp [hum, hpt, hum2]

/-- C9 (amended): after a successful `analyzePosition(fen, d)`, a `go`
command submitted without an intervening `position`/`ucinewgame` searches
the position built from `fen` — provided the command entry point had
already done its lazy provisioning (`threadsCmd` set); otherwise the
first `submit` call re-provisions and resets the position first. -/
theorem C9_analyze_then_go (E : Engine) (st : BridgeState) (fen : String) (d : Int)
    (v : Variant) (rm : RootMove) (tail : List RootMove) (mv : String)
    (goc : String) (goArgs : List String) (lims : Limits)
    (hinit : st.initialized = true) (hthreads : st.threadsCmd = true)
    (hana : st.threadsAna = true)
    (hclear : E.searchClear = none)
    (hvar : List.lookup "janggi" st.variantsReg = some v)
    (hset : E.posSetExc v fen false false = none)
    (hsearch : E.search (Position.set v fen false false) { depth := d } =
      Except.ok (rm :: tail))
    (hmv : E.uciMove (Position.set v fen false false) rm.pv0 = Except.ok mv)
    (htoks : tokenize goc = "go" :: goArgs)
    (hparse : parseGoToks E (Position.set v fen false false) goArgs ({} : Limits) =
      (none, lims)) :
    (stockfish_command E (stockfish_analyze E st (some fen) d).2 (some goc)).2.rootPos =
      some (Position.set v fen false false) := by
  have hmain := analyzeMain_ok E st fen d v rm tail mv hclear hvar hset hsearch hmv
  have hst1 : (stockfish_analyze E st (some fen) d).2 =
      { st with states := 1, pos := Position.set v fen false false,
                rootPos := some (Position.set v fen false false),
                rootMoves := rm :: tail,
                outputBuffer := truncate8191 (analyzeOut E rm mv) } := by
    simp [stockfish_analyze, hinit, hana, hmain, emit]
  rw [hst1]
  have hw : stockfish_command E
      ({ st with states := 1, pos := Position.set v fen false false,
                 rootPos := some (Position.set v fen false false),
                 rootMoves := rm :: tail,
                 outputBuffer := truncate8191 (analyzeOut E rm mv) } : BridgeState)
      (some goc) =
    commandMain E
      { st with states := 1, pos := Position.set v fen false false,
                rootPos := some (Position.set v fen false false),
                rootMoves := rm :: tail,
                outputBuffer := truncate8191 (analyzeOut E rm mv) } (some goc) := by
    simp [stockfish_command, hinit, hthreads]
  rw [hw, commandMain_some_rootPos]
  exact dispatch_go_rootPos E _ goc goArgs lims htoks hparse

/-- Witness for C5 at a concrete centipawn score with a principal move. -/
theorem C5_analyze_format_witness :
    (stockfish_analyze engOk stReadyBoth (some "F2") 2).1 =
      Except.ok (analyzeOut engOk { pv0 := 7, pvTail := [8], score := 42 } "mv7") ∧
    analyzeOut engOk { pv0 := 7, pvTail := [8], score := 42 } "mv7" =
      (if engOk.VALUE_MATE_IN_MAX_PLY ≤ ({ pv0 := 7, pvTail := [8], score := 42 } : RootMove).score then
        "mate " ++ toString (Int.tdiv (engOk.VALUE_MATE - ({ pv0 := 7, pvTail := [8], score := 42 } : RootMove).score + 1) 2)
      else if ({ pv0 := 7, pvTail := [8], score := 42 } : RootMove).score ≤ engOk.VALUE_MATED_IN_MAX_PLY then
        "mate " ++ toString (Int.tdiv (-engOk.VALUE_MATE - ({ pv0 := 7, pvTail := [8], score := 42 } : RootMove).score) 2)
      else
        "cp " ++ toString ({ pv0 := 7, pvTail := [8], score := 42 } : RootMove).score) ++
      (if ({ pv0 := 7, pvTail := [8], score := 42 } : RootMove).pv0 = MOVE_NONE then ""
       else " bestmove " ++ "mv7") ∧
    analyzeShapeOk (analyzeOut engOk { pv0 := 7, pvTail := [8], score := 42 } "mv7") :=
  C5_analyze_format engOk stReadyBoth "F2" 2 { startFen := "JF" }
    { pv0 := 7, pvTail := [8], score := 42 } [] "mv7"
    (by decide) (by decide) rfl (by decide) rfl (by decide) (by decide)
    (by decide) (by decide) (by decide)

/-- Counterexample to C9 as stated: when `go` is the first-ever `submit`
call, lazy provisioning resets the position to the starting layout, so
the search runs on the start position, not the analyzed fen. -/
theorem C9_counterexample :
    (stockfish_analyze engOk stInit (some "FENX") 3).1 = Except.ok "cp 42 bestmove mv7" ∧
    (stockfish_analyze engOk stInit (some "FENX") 3).2.pos =
      Position.set { startFen := "JF" } "FENX" false false ∧
    (stockfish_command engOk (stockfish_analyze engOk stInit (some "FENX") 3).2
      (some "go depth 1")).2.rootPos =
      some (Position.set { startFen := "JF" } "JF" false false) ∧
    Position.set { startFen := "JF" } "JF" false false ≠
      Position.set { startFen := "JF" } "FENX" false false := by
  refine ⟨by decide, by decide, by decide, by decide⟩

/-- Witness for C9 (amended) on a session whose command-side provisioning
has already run. -/
theorem C9_analyze_then_go_witness :
    (stockfish_command engOk (stockfish_analyze engOk stReadyBoth (some "F9") 2).2
      (some "go depth 1")).2.rootPos =
      some (Position.set { startFen := "JF" } "F9" false false) :=
  C9_analyze_then_go engOk stReadyBoth "F9" 2 { startFen := "JF" }
    { pv0 := 7, pvTail := [8], score := 42 } [] "mv7" "go depth 1" ["depth", "1"]
    { depth := 1 }
    (by decide) (by decide) (by decide) rfl (by decide) rfl (by decide) (by decide)
    (by decide) (by decide)
